import Mathlib

/-!
# Verification of the F1-prediction feature pipeline

Shallow embedding of the feature-extraction and rank-based prediction
core of the repository:

* `src/features/driver.py`       — rolling per-driver statistics
* `src/features/constructor.py`  — per-constructor standing and reliability
* `src/features/practice.py`     — stint detection, pace and degradation
* `src/pipeline/predict.py`      — prediction assembly and race ranking
* `src/models/sprint.py`         — sprint classifier interface

Conventions: pandas float columns that may hold NaN are modelled as
`Option ℚ` (with `none` standing for NaN/None); rows of a dataframe are
lists of structures; a Python function that can raise is modelled as an
`Except String` computation.
-/

/-- One row of a driver's or constructor's result history
(columns `RoundNumber`, `Position`, `Status` used by `driver.py` and
`constructor.py`).  `position = none` models a NaN `Position`. -/
structure ResultRow where
  round : ℕ
  position : Option ℚ
  status : String
deriving DecidableEq

/-- Stable insertion into a list kept in ascending `round` order:
the new element goes after all strictly smaller rounds and before
equal ones that were inserted earlier in the recursion. -/
def insertRound (x : ResultRow) : List ResultRow → List ResultRow
  | [] => [x]
  | y :: ys => if y.round < x.round then y :: insertRound x ys else x :: y :: ys

/-- Stable sort of result rows by ascending `RoundNumber`
(models `DataFrame.sort_values('RoundNumber')`). -/
def sortByRound : List ResultRow → List ResultRow
  | [] => []
  | x :: xs => insertRound x (sortByRound xs)

/-- Mean of a float column that may contain NaN, with pandas
`skipna` semantics: NaN entries are ignored; the mean of an all-NaN or
empty column is NaN (`none`). Models `Series.mean()`. -/
def meanOfOpt (l : List (Option ℚ)) : Option ℚ :=
  let v := l.filterMap id
  if v = [] then none else some (v.sum / v.length)

/-- Embedding of `calculate_driver_season_avg_position`
(`src/features/driver.py` lines 4-17): filter to rounds before
`current_round`, sort ascending by round, NaN on an empty slice,
otherwise the mean of `Position` over the last `window` rows. -/
def calculate_driver_season_avg_position (driver_results : List ResultRow)
    (current_round : ℕ) (window : ℕ := 5) : Option ℚ :=
  let past := sortByRound (driver_results.filter (fun r => decide (r.round < current_round)))
  if past = [] then none
  else meanOfOpt ((past.drop (past.length - window)).map (fun r => r.position))

/-- The status test of `calculate_driver_dnf_rate`: a row counts as a
DNF when its status is not `"Finished"` and contains no `'+'`. -/
def isDnfStatus (s : String) : Bool :=
  !(s == "Finished") && !(s.toList.contains '+')

/-- Embedding of `calculate_driver_dnf_rate`
(`src/features/driver.py` lines 19-48): 0.0 on an empty prior slice,
otherwise the fraction of prior rows whose status is neither
`"Finished"` nor contains a `'+'`. -/
def calculate_driver_dnf_rate (driver_results : List ResultRow)
    (current_round : ℕ) : ℚ :=
  let past := driver_results.filter (fun r => decide (r.round < current_round))
  if past = [] then 0
  else (past.countP (fun r => isDnfStatus r.status) : ℚ) / past.length

/-- One row of the constructors-standings table
(columns `RoundNumber`, `TeamName`, `Position`). -/
structure StandingRow where
  round : ℕ
  team : String
  position : ℚ
deriving DecidableEq

/-- The message of the `NameError` raised because `constructor.py`
evaluates `np.nan` without ever importing numpy. -/
def nameErrorNp : String := "NameError: name np is not defined"

/-- Embedding of `calculate_constructor_standing`
(`src/features/constructor.py` lines 3-23).  The module imports only
pandas, so both `return np.nan` statements raise a `NameError`
(modelled as `Except.error nameErrorNp`) instead of returning NaN. -/
def calculate_constructor_standing (standings_data : Option (List StandingRow))
    (team_name : String) (current_round : ℕ) : Except String ℚ :=
  match standings_data with
  | none => .error nameErrorNp
  | some rows =>
    if rows = [] then .error nameErrorNp
    else
      let prev := current_round - 1
      if prev < 1 then .ok 0
      else
        match rows.filter (fun r => r.round == prev && r.team == team_name) with
        | [] => .error nameErrorNp
        | r :: _ => .ok r.position

/-- Character-list version of Python's substring test. -/
def listPref : List Char → List Char → Bool
  | [], _ => true
  | _ :: _, [] => false
  | a :: as, b :: bs => a == b && listPref as bs

/-- `listSub n h` is true when `n` occurs as a contiguous run inside `h`. -/
def listSub (n : List Char) : List Char → Bool
  | [] => listPref n []
  | b :: bs => listPref n (b :: bs) || listSub n bs

/-- Python's `needle in hay` on strings. -/
def strHasSub (hay needle : String) : Bool := listSub needle.toList hay.toList

/-- ASCII lowercasing of one character (Python `str.lower` on the
ASCII statuses involved here). -/
def lowerChar (c : Char) : Char :=
  if 65 ≤ c.toNat ∧ c.toNat ≤ 90 then Char.ofNat (c.toNat + 32) else c

/-- ASCII lowercasing of a status string. -/
def strLower (s : String) : String := ⟨s.toList.map lowerChar⟩

/-- The mechanical-failure test of `calculate_reliability_score`:
the lowercased status contains one of four substrings. -/
def mechFail (s : String) : Bool :=
  let l := strLower s
  strHasSub l "engine" || strHasSub l "gearbox" ||
    strHasSub l "hydraulics" || strHasSub l "mechanical"

/-- Embedding of `calculate_reliability_score`
(`src/features/constructor.py` lines 25-47): 1.0 on an empty prior
slice, otherwise 1.0 minus the fraction of mechanical failures among
the `window * 2` most recent prior rows (two cars per team). -/
def calculate_reliability_score (constructor_results : List ResultRow)
    (current_round : ℕ) (window : ℕ := 10) : ℚ :=
  let past := sortByRound (constructor_results.filter (fun r => decide (r.round < current_round)))
  if past = [] then 1
  else
    let recent := past.drop (past.length - window * 2)
    let failures := recent.countP (fun r => mechFail r.status)
    if recent.length = 0 then 1
    else 1 - (failures : ℚ) / recent.length

/-- One lap row of a qualifying session's lap table as used by
`calculate_qualifying_delta_to_teammate` (columns `Driver`,
`LapTime`); `lapTime = none` models a NaT lap time. -/
structure QLap where
  driver : String
  lapTime : Option ℚ
deriving DecidableEq

/-- A session as consumed by `calculate_qualifying_delta_to_teammate`:
just its lap table (`session.laps`). -/
structure SessionLaps where
  laps : List QLap
deriving DecidableEq

/-- FastF1 `Laps.pick_drivers`: restrict the lap table to one driver. -/
def pick_drivers (laps : List QLap) (d : String) : List QLap :=
  laps.filter (fun l => l.driver == d)

/-- FastF1 `Laps.pick_fastest`: the lap with the minimum recorded
`LapTime` (first such lap on ties), or `none` when no lap has a
recorded time. -/
def pick_fastest (laps : List QLap) : Option QLap :=
  laps.foldl
    (fun acc l =>
      match l.lapTime with
      | none => acc
      | some t =>
        match acc with
        | none => some l
        | some b =>
          match b.lapTime with
          | none => some l
          | some tb => if t < tb then some l else acc)
    none

/-- Embedding of `calculate_qualifying_delta_to_teammate`
(`src/features/driver.py` lines 50-74): 0.0 when the teammate is
absent, when either driver has no laps, or when a fastest lap time is
missing; otherwise the signed difference of fastest lap times in
seconds. -/
def calculate_qualifying_delta_to_teammate (session : SessionLaps)
    (driver : String) (teammate : Option String) : ℚ :=
  match teammate with
  | none => 0
  | some tm =>
    let d_laps := pick_drivers session.laps driver
    let t_laps := pick_drivers session.laps tm
    if d_laps = [] then 0
    else if t_laps = [] then 0
    else
      match pick_fastest d_laps, pick_fastest t_laps with
      | some df, some tf =>
        match df.lapTime, tf.lapTime with
        | some dt, some tt => dt - tt
        | some _, none => 0
        | none, some _ => 0
        | none, none => 0
      | some _, none => 0
      | none, some _ => 0
      | none, none => 0

/-! ## Practice pace (`src/features/practice.py`) -/

/-- One lap row of a practice session's lap table: driver, lap time in
seconds, stint identifier, whether it survives `pick_quicklaps`
(laps with no recorded time never do), whether its track status is the
green flag `'1'`, and an optional speed-trap reading (`ST`). -/
structure Lap where
  driver : String
  lapTime : ℚ
  stint : ℕ
  quick : Bool
  green : Bool
  st : Option ℚ
deriving DecidableEq

/-- The weather table of a practice session: whether the `Rainfall`
column exists, and its boolean samples when it does. -/
structure WeatherTable where
  hasRainfallCol : Bool
  rainfall : List Bool
deriving DecidableEq

/-- A practice session as consumed by `calculate_race_pace`:
an optional weather table, whether the lap table has an `ST` column,
the `Speed` samples of the fastest lap's telemetry when
`get_telemetry` succeeds, and the lap table. -/
structure Session where
  weather_data : Option WeatherTable
  hasSTCol : Bool
  telemetry : Option (List ℚ)
  laps : List Lap
deriving DecidableEq

/-- The 4-tuple returned by `calculate_race_pace`:
`(race_pace, tire_deg, top_speed, rain_prob)`, every component a float
or None. -/
structure RaceResult where
  race_pace : Option ℚ
  tire_deg : Option ℚ
  top_speed : Option ℚ
  rain_prob : Option ℚ
deriving DecidableEq

/-- Maximum of a float list, `none` when empty
(models `Series.max()` yielding NaN on an empty series). -/
def listMaxQ (l : List ℚ) : Option ℚ :=
  l.foldl
    (fun acc x =>
      match acc with
      | none => some x
      | some m => some (max m x))
    none

/-- Arithmetic mean of a list of floats (`np.mean`). -/
def listMean (l : List ℚ) : ℚ := l.sum / l.length

/-- Numerator of the degree-1 least-squares slope of `y` against the
indices `0, …, n-1`: `n · Σ i·y(i) − (Σ i) · (Σ y(i))`. -/
def sNum (y : ℕ → ℚ) (n : ℕ) : ℚ :=
  (n : ℚ) * (∑ i ∈ Finset.range n, (i : ℚ) * y i) -
    (∑ i ∈ Finset.range n, (i : ℚ)) * (∑ i ∈ Finset.range n, y i)

/-- Denominator of the degree-1 least-squares slope:
`n · Σ i² − (Σ i)²`, which is `sNum` applied to the identity. -/
def sDen (n : ℕ) : ℚ := sNum (fun i => (i : ℚ)) n

/-- Slope of the degree-1 least-squares fit of the list `ys` against
lap indices `0, …, len-1` (`np.polyfit(x, times, 1)` first
coefficient). -/
def polyfitSlope (ys : List ℚ) : ℚ :=
  sNum (fun i => ys.getD i 0) ys.length / sDen ys.length

/-- First-occurrence deduplication, as `Series.unique()` returns stint
identifiers in order of first appearance. -/
def uniqueFirst : List ℕ → List ℕ
  | [] => []
  | x :: xs => x :: uniqueFirst (xs.filter (fun y => y != x))
termination_by l => l.length
decreasing_by
  simp_wf
  exact Nat.lt_succ_of_le (List.length_filter_le _ _)

/-- The rain-probability step of `calculate_race_pace` (lines 24-32):
0.0 without weather data, the fraction of samples with `Rainfall` true
when the column exists, and a `KeyError` when it does not. -/
def rainProbE (s : Session) : Except String ℚ :=
  match s.weather_data with
  | none => .ok 0
  | some w =>
    if w.hasRainfallCol then
      .ok (if w.rainfall.length = 0 then 0
           else (w.rainfall.countP (fun b => b) : ℚ) / w.rainfall.length)
    else .error "KeyError: Rainfall"

/-- FastF1 `Laps.pick_fastest` on a practice lap table (every lap here
carries a time, so any nonempty table has a fastest lap). -/
def pickFastestP (laps : List Lap) : Option Lap :=
  laps.foldl
    (fun acc l =>
      match acc with
      | none => some l
      | some b => if l.lapTime < b.lapTime then some l else acc)
    none

/-- The top-speed step of `calculate_race_pace` (lines 44-56): the max
of the `ST` column when it exists and holds a value, otherwise the max
`Speed` of the fastest lap's telemetry, otherwise absent (the inner
`get_telemetry` failure is swallowed by a bare `except: pass`). -/
def topSpeedOf (s : Session) (laps : List Lap) : Option ℚ :=
  let fromST := if s.hasSTCol then listMaxQ (laps.filterMap (fun l => l.st)) else none
  match fromST with
  | some v => some v
  | none =>
    match pickFastestP laps with
    | none => none
    | some _ =>
      match s.telemetry with
      | none => none
      | some speeds => listMaxQ speeds

/-- The body of `calculate_race_pace` inside its `try` block
(`src/features/practice.py` lines 23-94): an `Except` value whose
`error` case models a raised exception. -/
def racePaceBody (s : Session) (drv : String) (min_laps : ℕ) : Except String RaceResult :=
  match rainProbE s with
  | .error e => .error e
  | .ok rain_prob =>
    let laps := s.laps.filter (fun l => l.driver == drv)
    if laps = [] then .ok ⟨none, none, none, some rain_prob⟩
    else
      let top_speed := topSpeedOf s laps
      let quick := laps.filter (fun l => l.quick && l.green)
      if quick = [] then .ok ⟨none, none, top_speed, some rain_prob⟩
      else
        let stints := uniqueFirst (quick.map (fun l => l.stint))
        let runs := (stints.map (fun sid => quick.filter (fun l => l.stint == sid))).filter
          (fun g => decide (min_laps ≤ g.length))
        let long_run_avgs := runs.map (fun g => listMean (g.map (fun l => l.lapTime)))
        let long_run_slopes := (runs.filter (fun g => decide (1 < g.length))).map
          (fun g => polyfitSlope (g.map (fun l => l.lapTime)))
        if long_run_avgs = [] then .ok ⟨none, none, top_speed, some rain_prob⟩
        else .ok ⟨some (listMean long_run_avgs),
                  some (if long_run_slopes = [] then 0 else listMean long_run_slopes),
                  top_speed, some rain_prob⟩

/-- Embedding of `calculate_race_pace`
(`src/features/practice.py` lines 4-98): `(None, None, None, None)`
for a missing session, the `try`-block result otherwise, and — per the
`except` handler on lines 96-98 — `(None, None, None, None)` when the
body raises. -/
def calculate_race_pace (session : Option Session) (drv : String)
    (min_laps : ℕ := 5) : RaceResult :=
  match session with
  | none => ⟨none, none, none, none⟩
  | some s =>
    match racePaceBody s drv min_laps with
    | .ok r => r
    | .error _ => ⟨none, none, none, none⟩

/-! ## Prediction assembly (`src/pipeline/predict.py`) -/

/-- The three output classes of `SprintModel`
(`src/models/sprint.py` line 12). -/
inductive SprintClass where
  | Top3
  | Points
  | NoPoints
deriving DecidableEq

/-- `SprintModel._categorize_position` (`src/models/sprint.py`
lines 14-20): the class a finishing position is trained against. -/
def categorize_position (pos : ℚ) : SprintClass :=
  if pos ≤ 3 then .Top3
  else if pos ≤ 8 then .Points
  else .NoPoints

/-- The sprint entry of a driver prediction: either one of the three
model classes or the `"N/A"` placeholder of `predict.py` line 291. -/
inductive SprintResult where
  | cls (c : SprintClass)
  | na
deriving DecidableEq

/-- The event metadata reachable as `session.event`: the
`EventFormat` attribute when present (`getattr` defaults it to `""`
on line 280 of `predict.py`). -/
structure EventInfo where
  eventFormat : Option String
deriving DecidableEq

/-- The qualifying session object as probed by `predict_driver`:
its `event` attribute when present, and the outcome of
`track.calculate_track_temp_avg` on it (`error` models a raise caught
on lines 186-190 of `predict.py`). -/
structure QSession where
  event : Option EventInfo
  trackTemp : Except Unit ℚ

/-- The feature row fed to the qualifying and sprint models
(`predict.py` lines 243-250). -/
structure QualiFeatures where
  trackTemp : ℚ
  overtakeDifficulty : ℚ
  driverAvgPos : ℚ
  driverDNFRate : ℚ
  qualiDeltaTeammate : ℚ
  reliabilityScore : ℚ
deriving DecidableEq

/-- The feature row fed to the race model
(`predict.py` lines 260-272). -/
structure RaceFeatures where
  trackTemp : ℚ
  overtakeDifficulty : ℚ
  driverAvgPos : ℚ
  driverDNFRate : ℚ
  reliabilityScore : ℚ
  qualiDeltaTeammate : ℚ
  gridPosition : ℚ
  racePace : Option ℚ
  tireDegradation : Option ℚ
  topSpeed : Option ℚ
  rainProbability : ℚ
deriving DecidableEq

/-- The three opaque estimators loaded by `Predictor.__init__`,
specified only through their predict interfaces; the sprint model's
output is one of its three declared classes. -/
structure Models where
  quali : QualiFeatures → ℚ
  sprint : QualiFeatures → SprintClass
  race : RaceFeatures → ℚ

/-- The `(avg_pos, dnf_rate, rel_score)` triple produced by
`Predictor.calculate_driver_stats`. -/
structure DriverStats where
  avgPos : ℚ
  dnfRate : ℚ
  relScore : ℚ
deriving DecidableEq

/-- The dictionary returned by `Predictor.predict_driver`
(`predict.py` lines 295-304). -/
structure DriverPrediction where
  qualifying_position : ℚ
  sprint_class : SprintResult
  race_score : ℚ
  grid_position : ℚ
  race_pace : Option ℚ
  tire_degradation : Option ℚ
  top_speed : Option ℚ
  rain_probability : ℚ

/-- Track temperature resolution of `predict_driver`
(lines 185-193): the computed average, with 30.0 as the fallback when
the session is missing or the weather lookup raises. -/
def trackTempOf (sessionQ : Option QSession) : ℚ :=
  match sessionQ with
  | some s =>
    match s.trackTemp with
    | .ok t => t
    | .error _ => 30
  | none => 30

/-- The sprint-weekend probe of `predict_driver` (lines 276-281):
true exactly when a session is present, has an `event` attribute, and
`getattr(session.event, 'EventFormat', '')` equals `"sprint"`. -/
def isSprintWeekend (sessionQ : Option QSession) : Bool :=
  match sessionQ with
  | some s =>
    match s.event with
    | some ev => ev.eventFormat.getD "" == "sprint"
    | none => false
  | none => false

/-- The qualifying/sprint feature row assembled by `predict_driver`
(lines 243-250; `QualiDeltaTeammate` is hardcoded to 0.0 on
line 199). -/
def qualiFeaturesOf (sessionQ : Option QSession) (stats : DriverStats)
    (overtake_diff : ℚ) : QualiFeatures :=
  ⟨trackTempOf sessionQ, overtake_diff, stats.avgPos, stats.dnfRate, 0, stats.relScore⟩

/-- Embedding of the prediction core of `Predictor.predict_driver`
(`src/pipeline/predict.py` lines 170-304), parameterized over the
three opaque estimators and the driver stats computed from the
persisted history. -/
def predict_driver (m : Models) (sessionQ : Option QSession) (stats : DriverStats)
    (overtake_diff : ℚ) (actual_quali_pos : Option ℚ)
    (practice_session : Option Session) (weather_override : Option ℚ)
    (driver_name : String) : DriverPrediction :=
  let rp :=
    match practice_session with
    | some _ => calculate_race_pace practice_session driver_name 5
    | none => ⟨none, none, none, none⟩
  let rain_prob : ℚ :=
    match weather_override with
    | some w => w
    | none => rp.rain_prob.getD 0
  let qf := qualiFeaturesOf sessionQ stats overtake_diff
  let q_pred := m.quali qf
  let final_quali := actual_quali_pos.getD q_pred
  let grid := final_quali
  let rf : RaceFeatures :=
    ⟨trackTempOf sessionQ, overtake_diff, stats.avgPos, stats.dnfRate,
      stats.relScore, 0, grid, rp.race_pace, rp.tire_deg, rp.top_speed, rain_prob⟩
  let s_pred : SprintResult :=
    if isSprintWeekend sessionQ then .cls (m.sprint qf) else .na
  ⟨final_quali, s_pred, m.race rf, grid,
    rp.race_pace, rp.tire_deg, rp.top_speed, rain_prob⟩

/-- One entry of the `predictions` list built by
`Predictor.predict_race` before ranking: the driver tag added on
line 341 and the `Race_Score` used as the sort key on line 347. -/
structure DriverPred where
  driver : String
  race_score : ℚ
deriving DecidableEq

/-- A prediction entry after rank assignment (lines 350-351). -/
structure RankedPred where
  driver : String
  race_score : ℚ
  predicted_position : ℕ
deriving DecidableEq

/-- Stable descending insertion by a score function: the new element
walks past strictly greater scores and stops before the first score
less than or equal to its own, so earlier input stays ahead on ties —
the tie behaviour of Python's stable `list.sort(reverse=True)`. -/
def insertDesc (s : α → ℚ) (x : α) : List α → List α
  | [] => [x]
  | y :: ys => if s x < s y then y :: insertDesc s x ys else x :: y :: ys

/-- Stable descending sort by a score function, modelling
`predictions.sort(key=lambda x: x['Race_Score'], reverse=True)` on
line 347 of `predict.py`. -/
def sortDesc (s : α → ℚ) : List α → List α
  | [] => []
  | x :: xs => insertDesc s x (sortDesc s xs)

/-- The rank-assignment loop of `predict_race` (lines 350-351):
1-based positions in list order. -/
def assignRanks : List DriverPred → ℕ → List RankedPred
  | [], _ => []
  | p :: ps, i => ⟨p.driver, p.race_score, i⟩ :: assignRanks ps (i + 1)

/-- The sort-and-rank tail of `Predictor.predict_race`
(`src/pipeline/predict.py` lines 344-353): sort the per-driver
predictions by race score descending (stable) and assign
`Predicted_Position` as the 1-based rank. -/
def predict_race_rank (preds : List DriverPred) : List RankedPred :=
  assignRanks (sortDesc (fun p => p.race_score) preds) 1

/-- Forget the assigned rank, recovering a sortable prediction
entry. -/
def stripRank (r : RankedPred) : DriverPred := ⟨r.driver, r.race_score⟩

/-- Pair each list element with its 0-based input index. -/
def withIdx : List α → ℕ → List (α × ℕ)
  | [], _ => []
  | x :: xs, i => (x, i) :: withIdx xs (i + 1)

/-- The order an index-tagged stable descending sort must realize:
strictly greater score first, input order on equal scores. -/
def stableOrd (s : α → ℚ) (a b : α × ℕ) : Prop :=
  s b.1 < s a.1 ∨ (s a.1 = s b.1 ∧ a.2 < b.2)

/-! ## Concrete inputs used by scenario claims and witnesses -/

/-- The distinct race scores `19, 18, …, 0` of the 20-driver
ranking scenario. -/
def descList : List ℚ :=
  [19, 18, 17, 16, 15, 14, 13, 12, 11, 10, 9, 8, 7, 6, 5, 4, 3, 2, 1, 0]

/-- Twenty drivers holding the scores `19, …, 0` in a shuffled input
order. -/
def ps20 : List DriverPred :=
  [⟨"S05", 5⟩, ⟨"S19", 19⟩, ⟨"S00", 0⟩, ⟨"S07", 7⟩, ⟨"S12", 12⟩,
   ⟨"S01", 1⟩, ⟨"S18", 18⟩, ⟨"S03", 3⟩, ⟨"S15", 15⟩, ⟨"S09", 9⟩,
   ⟨"S14", 14⟩, ⟨"S02", 2⟩, ⟨"S17", 17⟩, ⟨"S06", 6⟩, ⟨"S11", 11⟩,
   ⟨"S04", 4⟩, ⟨"S16", 16⟩, ⟨"S08", 8⟩, ⟨"S13", 13⟩, ⟨"S10", 10⟩]

/-- A quick green-flag practice lap by driver `"VER"` on stint 1. -/
def mkLap (t : ℚ) : Lap := ⟨"VER", t, 1, true, true, none⟩

/-- A practice session holding exactly one stint of laps with the
given times, no weather data, no `ST` column and no telemetry. -/
def mkStintSession (ts : List ℚ) : Session := ⟨none, false, none, ts.map mkLap⟩

/-- A practice session whose weather table lacks the `Rainfall`
column, so the `try` body of `calculate_race_pace` raises a
`KeyError`. -/
def badSession : Session := ⟨some ⟨false, []⟩, false, none, []⟩

/-! ## Generic lemmas about the stable descending sort -/

theorem insertDesc_perm (s : α → ℚ) (x : α) (l : List α) :
    List.Perm (insertDesc s x l) (x :: l) := by
  induction l with
  | nil => exact List.Perm.refl _
  | cons y ys ih =>
    by_cases h : s x < s y
    · simp only [insertDesc, if_pos h]
      exact (List.Perm.cons y ih).trans (List.Perm.swap x y ys)
    · simp only [insertDesc, if_neg h]
      exact List.Perm.refl _

theorem sortDesc_perm (s : α → ℚ) (l : List α) : List.Perm (sortDesc s l) l := by
  induction l with
  | nil => exact List.Perm.refl _
  | cons x xs ih => exact (insertDesc_perm s x _).trans (List.Perm.cons x ih)

theorem insertDesc_pairwise (s : α → ℚ) (x : α) (l : List α)
    (hl : l.Pairwise (fun a b => s b ≤ s a)) :
    (insertDesc s x l).Pairwise (fun a b => s b ≤ s a) := by
  induction l with
  | nil => simp [insertDesc]
  | cons y ys ih =>
    rcases List.pairwise_cons.mp hl with ⟨hy, hys⟩
    by_cases h : s x < s y
    · simp only [insertDesc, if_pos h]
      refine List.pairwise_cons.mpr ⟨?_, ih hys⟩
      intro z hz
      rcases List.mem_cons.mp ((insertDesc_perm s x ys).mem_iff.mp hz) with rfl | hz'
      · exact le_of_lt h
      · exact hy z hz'
    · simp only [insertDesc, if_neg h]
      refine List.pairwise_cons.mpr ⟨?_, hl⟩
      intro z hz
      rcases List.mem_cons.mp hz with rfl | hz'
      · exact not_lt.mp h
      · exact (hy z hz').trans (not_lt.mp h)

theorem sortDesc_pairwise (s : α → ℚ) (l : List α) :
    (sortDesc s l).Pairwise (fun a b => s b ≤ s a) := by
  induction l with
  | nil => simp [sortDesc]
  | cons x xs ih => exact insertDesc_pairwise s x _ ih

theorem insertDesc_stable (s : α → ℚ) (x : α × ℕ) (l : List (α × ℕ))
    (hidx : ∀ y ∈ l, x.2 < y.2) (hl : l.Pairwise (stableOrd s)) :
    (insertDesc (fun p => s p.1) x l).Pairwise (stableOrd s) := by
  induction l with
  | nil => simp [insertDesc]
  | cons y ys ih =>
    rcases List.pairwise_cons.mp hl with ⟨hy, hys⟩
    by_cases h : s x.1 < s y.1
    · simp only [insertDesc, if_pos h]
      refine List.pairwise_cons.mpr
        ⟨?_, ih (fun z hz => hidx z (List.mem_cons_of_mem _ hz)) hys⟩
      intro z hz
      rcases List.mem_cons.mp ((insertDesc_perm _ x ys).mem_iff.mp hz) with rfl | hz'
      · exact Or.inl h
      · exact hy z hz'
    · simp only [insertDesc, if_neg h]
      have hxy : stableOrd s x y := by
        rcases lt_or_eq_of_le (not_lt.mp h) with hlt | heq
        · exact Or.inl hlt
        · exact Or.inr ⟨heq.symm, hidx y (List.mem_cons_self _ _)⟩
      refine List.pairwise_cons.mpr ⟨?_, hl⟩
      intro z hz
      rcases List.mem_cons.mp hz with rfl | hz'
      · exact hxy
      · have h1 : s z.1 ≤ s y.1 := by
          rcases hy z hz' with h' | ⟨h', _⟩
          · exact le_of_lt h'
          · exact le_of_eq h'.symm
        rcases lt_or_eq_of_le (h1.trans (not_lt.mp h)) with hlt | heq
        · exact Or.inl hlt
        · exact Or.inr ⟨heq.symm, hidx z (List.mem_cons_of_mem _ hz')⟩

theorem sortDesc_stable (s : α → ℚ) (l : List (α × ℕ))
    (h : l.Pairwise (fun a b => a.2 < b.2)) :
    (sortDesc (fun p => s p.1) l).Pairwise (stableOrd s) := by
  induction l with
  | nil => simp [sortDesc]
  | cons x xs ih =>
    rcases List.pairwise_cons.mp h with ⟨hx, hxs⟩
    exact insertDesc_stable s x _
      (fun y hy => hx y ((sortDesc_perm _ xs).mem_iff.mp hy)) (ih hxs)

theorem insertDesc_map_fst (s : α → ℚ) (x : α × ℕ) (l : List (α × ℕ)) :
    (insertDesc (fun p => s p.1) x l).map Prod.fst = insertDesc s x.1 (l.map Prod.fst) := by
  induction l with
  | nil => rfl
  | cons y ys ih =>
    by_cases h : s x.1 < s y.1
    · simp only [insertDesc, if_pos h, List.map_cons, ih]
    · simp only [insertDesc, if_neg h, List.map_cons]

theorem sortDesc_map_fst (s : α → ℚ) (l : List (α × ℕ)) :
    (sortDesc (fun p => s p.1) l).map Prod.fst = sortDesc s (l.map Prod.fst) := by
  induction l with
  | nil => rfl
  | cons x xs ih => simp only [sortDesc, insertDesc_map_fst, ih, List.map_cons]

theorem withIdx_map_fst (l : List α) (i : ℕ) : (withIdx l i).map Prod.fst = l := by
  induction l generalizing i with
  | nil => rfl
  | cons x xs ih => simp [withIdx, ih]

theorem withIdx_idx_le (l : List α) (i : ℕ) : ∀ p ∈ withIdx l i, i ≤ p.2 := by
  induction l generalizing i with
  | nil => simp [withIdx]
  | cons x xs ih =>
    intro p hp
    rcases List.mem_cons.mp hp with rfl | hp'
    · exact le_refl i
    · exact (Nat.le_succ i).trans (ih (i + 1) p hp')

theorem withIdx_pairwise (l : List α) (i : ℕ) :
    (withIdx l i).Pairwise (fun a b => a.2 < b.2) := by
  induction l generalizing i with
  | nil => simp [withIdx]
  | cons x xs ih =>
    refine List.pairwise_cons.mpr ⟨?_, ih (i + 1)⟩
    intro p hp
    exact Nat.lt_of_succ_le (withIdx_idx_le xs (i + 1) p hp)

theorem insertDesc_eq_cons (s : α → ℚ) (x : α) (l : List α)
    (h : ∀ z ∈ l, s z ≤ s x) : insertDesc s x l = x :: l := by
  cases l with
  | nil => rfl
  | cons y ys =>
    simp only [insertDesc, if_neg (not_lt.mpr (h y (List.mem_cons_self _ _)))]

theorem sortDesc_eq_self (s : α → ℚ) (l : List α)
    (h : l.Pairwise (fun a b => s b ≤ s a)) : sortDesc s l = l := by
  induction l with
  | nil => rfl
  | cons x xs ih =>
    rcases List.pairwise_cons.mp h with ⟨hx, hxs⟩
    rw [sortDesc, ih hxs, insertDesc_eq_cons s x xs hx]

theorem assignRanks_strip (l : List DriverPred) (i : ℕ) :
    (assignRanks l i).map stripRank = l := by
  induction l generalizing i with
  | nil => rfl
  | cons p ps ih => simp [assignRanks, stripRank, ih]

theorem assignRanks_scores (l : List DriverPred) (i : ℕ) :
    (assignRanks l i).map (fun r => r.race_score) = l.map (fun p => p.race_score) := by
  induction l generalizing i with
  | nil => rfl
  | cons p ps ih => simp [assignRanks, ih]

theorem assignRanks_positions (l : List DriverPred) (i : ℕ) :
    (assignRanks l i).map (fun r => r.predicted_position) = List.range' i l.length := by
  induction l generalizing i with
  | nil => rfl
  | cons p ps ih => simp [assignRanks, ih, List.range'_succ]

theorem assignRanks_mem (q : RankedPred) (l : List DriverPred) (i : ℕ)
    (hq : q ∈ assignRanks l i) :
    ∃ j, ∃ h : j < l.length,
      q = ⟨(l.get ⟨j, h⟩).driver, (l.get ⟨j, h⟩).race_score, i + j⟩ := by
  induction l generalizing i with
  | nil => simp [assignRanks] at hq
  | cons p ps ih =>
    rcases List.mem_cons.mp hq with rfl | hq'
    · exact ⟨0, by simp, by simp⟩
    · rcases ih (i + 1) hq' with ⟨j, hj, hqe⟩
      refine ⟨j + 1, by simpa using Nat.succ_lt_succ hj, ?_⟩
      rw [hqe]
      simp [Nat.add_assoc, Nat.add_comm 1 j]

/-- C1: `predict_race` sorts the per-driver predictions by race score
in descending order with ties broken by input order (stable sort) and
assigns `predicted_position` as the 1-based rank; re-running the
sort-and-rank assignment on its own output yields identical
assignments; and whenever the 20 input scores are a permutation of
`19, 18, …, 0`, the driver with score 19 receives position 1 and the
driver with score 0 receives position 20. -/
theorem predict_race_rank_spec (ps : List DriverPred) :
    ((predict_race_rank ps).map (fun r => r.race_score)).Pairwise (fun a b => b ≤ a) ∧
    List.Perm ((predict_race_rank ps).map stripRank) ps ∧
    (predict_race_rank ps).map (fun r => r.predicted_position) = List.range' 1 ps.length ∧
    predict_race_rank ((predict_race_rank ps).map stripRank) = predict_race_rank ps ∧
    ((sortDesc (fun p => p.1.race_score) (withIdx ps 0)).map Prod.fst
        = sortDesc (fun p => p.race_score) ps ∧
      (sortDesc (fun p => p.1.race_score) (withIdx ps 0)).Pairwise
        (stableOrd (fun p => p.race_score))) ∧
    (List.Perm (ps.map (fun p => p.race_score)) descList →
      ∀ q ∈ predict_race_rank ps,
        (q.race_score = 19 → q.predicted_position = 1) ∧
        (q.race_score = 0 → q.predicted_position = 20)) := by
  have hperm := sortDesc_perm (fun p : DriverPred => p.race_score) ps
  have hsorted := sortDesc_pairwise (fun p : DriverPred => p.race_score) ps
  refine ⟨?_, ?_, ?_, ?_, ⟨?_, ?_⟩, ?_⟩
  · rw [predict_race_rank, assignRanks_scores]
    exact List.pairwise_map.mpr hsorted
  · rw [predict_race_rank, assignRanks_strip]
    exact hperm
  · rw [predict_race_rank, assignRanks_positions, hperm.length_eq]
  · have aux : (predict_race_rank ps).map stripRank
        = sortDesc (fun p => p.race_score) ps := by
      rw [predict_race_rank, assignRanks_strip]
    rw [aux, predict_race_rank, sortDesc_eq_self _ _ hsorted]
    rfl
  · rw [sortDesc_map_fst, withIdx_map_fst]
  · exact sortDesc_stable _ _ (withIdx_pairwise ps 0)
  · intro hscores q hq
    have hLscores : List.Perm ((sortDesc (fun p : DriverPred => p.race_score) ps).map
        (fun p => p.race_score)) descList :=
      (hperm.map (fun p => p.race_score)).trans hscores
    haveI : IsAntisymm ℚ (fun a b : ℚ => b ≤ a) := ⟨fun a b h1 h2 => le_antisymm h2 h1⟩
    have hLs : ((sortDesc (fun p : DriverPred => p.race_score) ps).map
        (fun p => p.race_score)).Sorted (fun a b : ℚ => b ≤ a) :=
      List.pairwise_map.mpr hsorted
    have hdsorted : descList.Sorted (fun a b : ℚ => b ≤ a) := by decide
    have heq : (sortDesc (fun p : DriverPred => p.race_score) ps).map
        (fun p => p.race_score) = descList :=
      List.eq_of_perm_of_sorted hLscores hLs hdsorted
    have hlen : (sortDesc (fun p : DriverPred => p.race_score) ps).length = 20 := by
      have hlm := congrArg List.length heq
      simpa [descList] using hlm
    rcases assignRanks_mem q _ 1 hq with ⟨j, hj, hqe⟩
    have hj20 : j < 20 := hlen ▸ hj
    have hsome : descList[j]? = some q.race_score := by
      rw [hqe, ← heq, List.getElem?_map, List.getElem?_eq_getElem hj]
      rfl
    constructor
    · intro h19
      have key : ∀ i : Fin 20, descList[(i : ℕ)]? = some 19 → (i : ℕ) = 0 := by decide
      have hj0 : j = 0 := key ⟨j, hj20⟩ (h19 ▸ hsome)
      rw [hqe]
      show 1 + j = 1
      omega
    · intro h0
      have key : ∀ i : Fin 20, descList[(i : ℕ)]? = some 0 → (i : ℕ) = 19 := by decide
      have hj19 : j = 19 := key ⟨j, hj20⟩ (h0 ▸ hsome)
      rw [hqe]
      show 1 + j = 20
      omega

/-- Witness for C1: on a concrete shuffled field of 20 drivers with
scores `19, …, 0`, the driver with score 19 is ranked first. -/
theorem predict_race_rank_spec_witness :
    List.Perm (ps20.map (fun p => p.race_score)) descList ∧
    (⟨"S19", (19 : ℚ), 1⟩ : RankedPred) ∈ predict_race_rank ps20 ∧
    (⟨"S19", (19 : ℚ), 1⟩ : RankedPred).predicted_position = 1 := by
  refine ⟨by decide, by decide, ?_⟩
  exact (((predict_race_rank_spec ps20).2.2.2.2.2 (by decide))
    ⟨"S19", (19 : ℚ), 1⟩ (by decide)).1 rfl

/-- C2: `average_recent_position` returns NaN when no entry has
round < current_round, and otherwise the arithmetic mean of the
positions of the last `window` entries with round < current_round in
ascending round order, skipping missing position values; on the
history `[(1,3),(2,1),(3,5)]` with current round 4 and window 5 the
result is exactly 3.0. -/
theorem calculate_driver_season_avg_position_spec (res : List ResultRow) (cr w : ℕ) :
    (res.filter (fun r => decide (r.round < cr)) = [] →
      calculate_driver_season_avg_position res cr w = none) ∧
    (∀ past, past = sortByRound (res.filter (fun r => decide (r.round < cr))) →
      past ≠ [] →
      calculate_driver_season_avg_position res cr w =
        meanOfOpt ((past.drop (past.length - w)).map (fun r => r.position))) ∧
    calculate_driver_season_avg_position
      [⟨1, some 3, "Finished"⟩, ⟨2, some 1, "Finished"⟩, ⟨3, some 5, "Finished"⟩] 4 5
      = some 3 := by
  refine ⟨?_, ?_, ?_⟩
  · intro h
    simp only [calculate_driver_season_avg_position, h]
    rfl
  · intro past hpast hne
    simp only [calculate_driver_season_avg_position, ← hpast]
    rw [if_neg hne]
  · simp only [calculate_driver_season_avg_position]
    norm_num [sortByRound, insertRound, meanOfOpt, List.filterMap_cons]
    exact ⟨by decide, by decide⟩

/-- Witness for C2: both hypothesis-bearing clauses instantiated on
concrete histories. -/
theorem calculate_driver_season_avg_position_spec_witness :
    calculate_driver_season_avg_position [⟨5, some 1, "Finished"⟩] 3 5 = none ∧
    calculate_driver_season_avg_position [⟨1, some 2, "Finished"⟩] 2 5 = some 2 ∧
    calculate_driver_season_avg_position
      [⟨1, some 3, "Finished"⟩, ⟨2, some 1, "Finished"⟩, ⟨3, some 5, "Finished"⟩] 4 5
      = some 3 := by
  refine ⟨(calculate_driver_season_avg_position_spec _ 3 5).1 (by decide), ?_,
    (calculate_driver_season_avg_position_spec ([] : List ResultRow) 4 5).2.2⟩
  have h := (calculate_driver_season_avg_position_spec
    [⟨1, some 2, "Finished"⟩] 2 5).2.1 [⟨1, some 2, "Finished"⟩] (by decide) (by decide)
  rw [h]
  norm_num [meanOfOpt, List.filterMap_cons]

/-- C3: `dnf_rate` returns exactly 0.0 when no entry has
round < current_round (not NaN), and otherwise `k / n` where `n` is
the number of prior entries and `k` the number of those whose status
is not `"Finished"` and contains no `'+'`. -/
theorem calculate_driver_dnf_rate_spec (res : List ResultRow) (cr : ℕ) :
    (res.filter (fun r => decide (r.round < cr)) = [] →
      calculate_driver_dnf_rate res cr = 0) ∧
    (∀ past, past = res.filter (fun r => decide (r.round < cr)) → past ≠ [] →
      calculate_driver_dnf_rate res cr =
        (past.countP (fun r => isDnfStatus r.status) : ℚ) / past.length) ∧
    calculate_driver_dnf_rate
      [⟨1, some 3, "Finished"⟩, ⟨2, none, "+1 Lap"⟩, ⟨3, none, "Engine"⟩] 4 = 1 / 3 := by
  refine ⟨?_, ?_, ?_⟩
  · intro h
    simp only [calculate_driver_dnf_rate, h]
    rfl
  · intro past hpast hne
    simp only [calculate_driver_dnf_rate, ← hpast]
    rw [if_neg hne]
  · simp only [calculate_driver_dnf_rate]
    rw [if_neg (by decide)]
    rw [show List.countP (fun r => isDnfStatus r.status)
        (List.filter (fun r => decide (r.round < 4))
          ([⟨1, some 3, "Finished"⟩, ⟨2, none, "+1 Lap"⟩, ⟨3, none, "Engine"⟩]
            : List ResultRow)) = 1 from by decide]
    norm_num

/-- Witness for C3: both hypothesis-bearing clauses instantiated on
concrete histories. -/
theorem calculate_driver_dnf_rate_spec_witness :
    calculate_driver_dnf_rate [⟨7, some 1, "Finished"⟩] 3 = 0 ∧
    calculate_driver_dnf_rate [⟨1, some 3, "Finished"⟩, ⟨2, none, "Collision"⟩] 3 = 1 / 2 := by
  refine ⟨(calculate_driver_dnf_rate_spec _ 3).1 (by decide), ?_⟩
  have h := (calculate_driver_dnf_rate_spec
    [⟨1, some 3, "Finished"⟩, ⟨2, none, "Collision"⟩] 3).2.1
    [⟨1, some 3, "Finished"⟩, ⟨2, none, "Collision"⟩] (by decide) (by decide)
  rw [h]
  rw [show List.countP (fun r => isDnfStatus r.status)
      ([⟨1, some 3, "Finished"⟩, ⟨2, none, "Collision"⟩] : List ResultRow) = 1
    from by decide]
  norm_num

/-- C10: `calculate_constructor_standing` is not total on missing
standings data: with a `None` or empty standings table it evaluates
the unbound name `np` (numpy is never imported in `constructor.py`)
and raises a `NameError` instead of returning a value. -/
theorem calculate_constructor_standing_missing_table (team : String) (cr : ℕ) :
    calculate_constructor_standing none team cr = .error nameErrorNp ∧
    calculate_constructor_standing (some []) team cr = .error nameErrorNp :=
  ⟨rfl, rfl⟩

/-- C5 (divergence witness): with a non-empty standings table,
`calculate_constructor_standing` returns 0 at the season's first
round and the team's previous-round rank when a row exists, but on a
missing row it raises the `NameError` from the unbound `np` instead
of returning NaN as specified. -/
theorem calculate_constructor_standing_missing_row_bug :
    calculate_constructor_standing (some [⟨1, "Red Bull", 1⟩]) "Ferrari" 2
      = .error nameErrorNp ∧
    calculate_constructor_standing (some [⟨1, "Red Bull", 1⟩]) "Red Bull" 2 = .ok 1 ∧
    calculate_constructor_standing (some [⟨1, "Red Bull", 1⟩]) "Ferrari" 1 = .ok 0 :=
  ⟨rfl, rfl, rfl⟩

/-- C6: `reliability_score` always lies in `[0,1]`; it is exactly 1.0
when no entry has round < current_round, and otherwise equals 1.0
minus the fraction of mechanical-failure statuses (case-insensitive
substring match on engine/gearbox/hydraulics/mechanical) among the
most recent `window * 2` prior entries. -/
theorem calculate_reliability_score_spec (res : List ResultRow) (cr w : ℕ) :
    (0 ≤ calculate_reliability_score res cr w ∧ calculate_reliability_score res cr w ≤ 1) ∧
    (res.filter (fun r => decide (r.round < cr)) = [] →
      calculate_reliability_score res cr w = 1) ∧
    (∀ recent,
      recent = (sortByRound (res.filter (fun r => decide (r.round < cr)))).drop
        ((sortByRound (res.filter (fun r => decide (r.round < cr)))).length - w * 2) →
      recent ≠ [] →
      calculate_reliability_score res cr w =
        1 - (recent.countP (fun r => mechFail r.status) : ℚ) / recent.length) := by
  refine ⟨?_, ?_, ?_⟩
  · simp only [calculate_reliability_score]
    split_ifs with h1 h2
    · norm_num
    · norm_num
    · set recent := (sortByRound (res.filter (fun r => decide (r.round < cr)))).drop
        ((sortByRound (res.filter (fun r => decide (r.round < cr)))).length - w * 2) with hrec
      have hn : 0 < recent.length := Nat.pos_of_ne_zero h2
      have hk : (recent.countP (fun r => mechFail r.status) : ℚ) ≤ recent.length := by
        exact_mod_cast List.countP_le_length _
      have hq : (0 : ℚ) < recent.length := by exact_mod_cast hn
      have h0 : (0 : ℚ) ≤ (recent.countP (fun r => mechFail r.status) : ℚ) / recent.length :=
        div_nonneg (by positivity) (le_of_lt hq)
      have hle : (recent.countP (fun r => mechFail r.status) : ℚ) / recent.length ≤ 1 :=
        (div_le_one hq).mpr hk
      constructor <;> linarith
  · intro h
    simp only [calculate_reliability_score, h]
    rfl
  · intro recent hrec hne
    have hpast : sortByRound (res.filter (fun r => decide (r.round < cr))) ≠ [] := by
      intro h0
      apply hne
      rw [hrec, h0]
      exact List.drop_nil
    have hlen : recent.length ≠ 0 := by
      intro h0
      exact hne (List.length_eq_zero.mp h0)
    simp only [calculate_reliability_score, ← hrec]
    rw [if_neg hpast, if_neg hlen]

/-- Witness for C6: the empty-history and fraction clauses
instantiated on concrete constructor histories. -/
theorem calculate_reliability_score_spec_witness :
    calculate_reliability_score [] 1 10 = 1 ∧
    calculate_reliability_score [⟨1, some 1, "Engine"⟩, ⟨1, some 2, "Finished"⟩] 2 10
      = 1 / 2 := by
  refine ⟨(calculate_reliability_score_spec [] 1 10).2.1 (by decide), ?_⟩
  have h := (calculate_reliability_score_spec
    [⟨1, some 1, "Engine"⟩, ⟨1, some 2, "Finished"⟩] 2 10).2.2
    [⟨1, some 1, "Engine"⟩, ⟨1, some 2, "Finished"⟩] (by decide) (by decide)
  rw [h]
  rw [show List.countP (fun r => mechFail r.status)
      ([⟨1, some 1, "Engine"⟩, ⟨1, some 2, "Finished"⟩] : List ResultRow) = 1
    from by decide]
  norm_num

/-- C8: `calculate_qualifying_delta_to_teammate` never raises: it is a
total function returning exactly 0.0 when the teammate is absent, when
either driver has no laps in the session, or when a fastest lap time
is missing, and otherwise the signed difference in seconds between the
driver's and the teammate's fastest lap times. -/
theorem calculate_qualifying_delta_to_teammate_spec (session : SessionLaps)
    (d : String) (tOpt : Option String) :
    (tOpt = none → calculate_qualifying_delta_to_teammate session d tOpt = 0) ∧
    (∀ tm, tOpt = some tm → pick_drivers session.laps d = [] →
      calculate_qualifying_delta_to_teammate session d tOpt = 0) ∧
    (∀ tm, tOpt = some tm → pick_drivers session.laps tm = [] →
      calculate_qualifying_delta_to_teammate session d tOpt = 0) ∧
    (∀ tm, tOpt = some tm →
      (pick_fastest (pick_drivers session.laps d) = none ∨
        pick_fastest (pick_drivers session.laps tm) = none) →
      calculate_qualifying_delta_to_teammate session d tOpt = 0) ∧
    (∀ tm df tf dt tt, tOpt = some tm →
      pick_fastest (pick_drivers session.laps d) = some df →
      pick_fastest (pick_drivers session.laps tm) = some tf →
      df.lapTime = some dt → tf.lapTime = some tt →
      calculate_qualifying_delta_to_teammate session d tOpt = dt - tt) := by
  refine ⟨?_, ?_, ?_, ?_, ?_⟩
  · rintro rfl
    rfl
  · rintro tm rfl h
    simp only [calculate_qualifying_delta_to_teammate, h]
    rfl
  · rintro tm rfl h
    simp only [calculate_qualifying_delta_to_teammate, h]
    split <;> rfl
  · rintro tm rfl h
    simp only [calculate_qualifying_delta_to_teammate]
    split
    · rfl
    · split
      · rfl
      · rcases h with h | h <;> rw [h] <;> split <;> simp_all
  · rintro tm df tf dt tt rfl hdf htf hdt htt
    have hde : pick_drivers session.laps d ≠ [] := by
      intro h0
      rw [h0] at hdf
      simp [pick_fastest] at hdf
    have hte : pick_drivers session.laps tm ≠ [] := by
      intro h0
      rw [h0] at htf
      simp [pick_fastest] at htf
    simp only [calculate_qualifying_delta_to_teammate]
    rw [if_neg hde, if_neg hte, hdf, htf]
    simp [hdt, htt]

/-- Witness for C8: the missing-teammate and happy-path clauses on a
concrete two-driver session. -/
theorem calculate_qualifying_delta_to_teammate_spec_witness :
    calculate_qualifying_delta_to_teammate
      ⟨[⟨"VER", some 80⟩, ⟨"PER", some 81⟩]⟩ "VER" (some "PER") = 80 - 81 ∧
    calculate_qualifying_delta_to_teammate
      ⟨[⟨"VER", some 80⟩, ⟨"PER", some 81⟩]⟩ "VER" none = 0 := by
  constructor
  · exact (calculate_qualifying_delta_to_teammate_spec
      ⟨[⟨"VER", some 80⟩, ⟨"PER", some 81⟩]⟩ "VER" (some "PER")).2.2.2.2
      "PER" ⟨"VER", some 80⟩ ⟨"PER", some 81⟩ 80 81 rfl (by decide) (by decide) rfl rfl
  · exact (calculate_qualifying_delta_to_teammate_spec
      ⟨[⟨"VER", some 80⟩, ⟨"PER", some 81⟩]⟩ "VER" none).1 rfl

/-- C9: the sprint entry of a `predict_driver` prediction is the
sprint model's output (one of the three classes) exactly when the
probed event format equals `"sprint"`, and is the `"N/A"` placeholder
in every other case — including a missing session, a session without
an `event` attribute, and an event without an `EventFormat`
attribute. -/
theorem predict_driver_sprint_spec (m : Models) (sessionQ : Option QSession)
    (stats : DriverStats) (od : ℚ) (aq : Option ℚ) (pr : Option Session)
    (wo : Option ℚ) (dn : String) :
    ((predict_driver m sessionQ stats od aq pr wo dn).sprint_class =
      if isSprintWeekend sessionQ then
        SprintResult.cls (m.sprint (qualiFeaturesOf sessionQ stats od))
      else SprintResult.na) ∧
    isSprintWeekend none = false ∧
    (∀ t, isSprintWeekend (some ⟨none, t⟩) = false) ∧
    (∀ t, isSprintWeekend (some ⟨some ⟨none⟩, t⟩) = false) ∧
    (∀ t, isSprintWeekend (some ⟨some ⟨some "sprint"⟩, t⟩) = true) ∧
    (∀ c : SprintClass, c = .Top3 ∨ c = .Points ∨ c = .NoPoints) := by
  refine ⟨rfl, rfl, fun t => rfl, fun t => rfl, fun t => rfl, fun c => ?_⟩
  cases c
  · exact Or.inl rfl
  · exact Or.inr (Or.inl rfl)
  · exact Or.inr (Or.inr rfl)

/-! ## Least-squares slope lemmas for the practice-pace claims -/

theorem sNum_succ (y : ℕ → ℚ) (n : ℕ) :
    sNum y (n + 1) = sNum y n + ∑ i ∈ Finset.range n, ((n : ℚ) - i) * (y n - y i) := by
  have h1 : ∑ i ∈ Finset.range n, ((n : ℚ) - i) * (y n - y i)
      = (n : ℚ) * (n * y n) - (n : ℚ) * (∑ i ∈ Finset.range n, y i)
        - (∑ i ∈ Finset.range n, (i : ℚ)) * y n
        + ∑ i ∈ Finset.range n, (i : ℚ) * y i := by
    have h2 : ∀ i ∈ Finset.range n, ((n : ℚ) - i) * (y n - y i)
        = (n : ℚ) * y n - (n : ℚ) * y i - (i : ℚ) * y n + (i : ℚ) * y i := by
      intro i _
      ring
    rw [Finset.sum_congr rfl h2]
    rw [Finset.sum_add_distrib, Finset.sum_sub_distrib, Finset.sum_sub_distrib,
      Finset.sum_const, Finset.card_range, ← Finset.mul_sum, ← Finset.sum_mul,
      nsmul_eq_mul]
  simp only [sNum, Finset.sum_range_succ]
  rw [h1]
  push_cast
  ring

theorem sNum_const (y : ℕ → ℚ) (n : ℕ) (c : ℚ) (h : ∀ i, i < n → y i = c) :
    sNum y n = 0 := by
  have h1 : ∑ i ∈ Finset.range n, (i : ℚ) * y i
      = (∑ i ∈ Finset.range n, (i : ℚ)) * c := by
    rw [Finset.sum_mul]
    refine Finset.sum_congr rfl ?_
    intro i hi
    rw [h i (Finset.mem_range.mp hi)]
  have h2 : ∑ i ∈ Finset.range n, y i = (n : ℚ) * c := by
    have := Finset.sum_congr rfl (fun i hi => h i (Finset.mem_range.mp hi))
    rw [this, Finset.sum_const, Finset.card_range, nsmul_eq_mul]
  simp only [sNum, h1, h2]
  ring

theorem sNum_pos (y : ℕ → ℚ) (n : ℕ) (h2 : 2 ≤ n)
    (hmono : ∀ i j, i < j → j < n → y i < y j) : 0 < sNum y n := by
  induction n, h2 using Nat.le_induction with
  | base =>
    have hy := hmono 0 1 (by norm_num) (by norm_num)
    simp only [sNum, Finset.sum_range_succ, Finset.sum_range_zero]
    push_cast
    nlinarith
  | succ n hn ih =>
    rw [sNum_succ]
    have hIH : 0 < sNum y n :=
      ih (fun i j hij hj => hmono i j hij (Nat.lt_succ_of_lt hj))
    have hsum : 0 ≤ ∑ i ∈ Finset.range n, ((n : ℚ) - i) * (y n - y i) := by
      refine Finset.sum_nonneg ?_
      intro i hi
      have hin : i < n := Finset.mem_range.mp hi
      have h1 : (0 : ℚ) < (n : ℚ) - i := by
        have : (i : ℚ) < n := by exact_mod_cast hin
        linarith
      have h3 : (0 : ℚ) < y n - y i := by
        have := hmono i n hin (Nat.lt_succ_self n)
        linarith
      positivity
    linarith

theorem sNum_neg_fun (y : ℕ → ℚ) (n : ℕ) : sNum (fun i => -y i) n = -sNum y n := by
  simp only [sNum, mul_neg, Finset.sum_neg_distrib]
  ring

theorem sDen_pos (n : ℕ) (h2 : 2 ≤ n) : 0 < sDen n := by
  refine sNum_pos _ n h2 ?_
  intro i j hij _
  exact_mod_cast hij

theorem getD_replicate (n i : ℕ) (T : ℚ) (h : i < n) :
    (List.replicate n T).getD i 0 = T := by
  induction n generalizing i with
  | zero => omega
  | succ n ih =>
    cases i with
    | zero => rfl
    | succ i =>
      rw [List.replicate_succ]
      exact ih i (Nat.lt_of_succ_lt_succ h)

theorem getD_eq_get (l : List ℚ) (i : ℕ) (h : i < l.length) :
    l.getD i 0 = l.get ⟨i, h⟩ := by
  induction l generalizing i with
  | nil => simp at h
  | cons x xs ih =>
    cases i with
    | zero => rfl
    | succ i => exact ih i (Nat.lt_of_succ_lt_succ h)

theorem polyfitSlope_const (n : ℕ) (T : ℚ) : polyfitSlope (List.replicate n T) = 0 := by
  simp only [polyfitSlope, List.length_replicate]
  rw [sNum_const _ n T (fun i hi => getD_replicate n i T hi), zero_div]

theorem chain'_lt_getD (ts : List ℚ) (hc : ts.Chain' (· < ·)) :
    ∀ i j, i < j → j < ts.length → ts.getD i 0 < ts.getD j 0 := by
  intro i j hij hj
  have hp : ts.Pairwise (· < ·) := List.chain'_iff_pairwise.mp hc
  have hi : i < ts.length := lt_trans hij hj
  rw [getD_eq_get ts i hi, getD_eq_get ts j hj]
  exact List.pairwise_iff_get.mp hp ⟨i, hi⟩ ⟨j, hj⟩ hij

theorem polyfitSlope_pos (ts : List ℚ) (h2 : 2 ≤ ts.length)
    (hc : ts.Chain' (· < ·)) : 0 < polyfitSlope ts := by
  have hnum : 0 < sNum (fun i => ts.getD i 0) ts.length :=
    sNum_pos _ _ h2 (fun i j hij hj => chain'_lt_getD ts hc i j hij hj)
  exact div_pos hnum (sDen_pos _ h2)

theorem polyfitSlope_negative (ts : List ℚ) (h2 : 2 ≤ ts.length)
    (hc : ts.Chain' (· > ·)) : polyfitSlope ts < 0 := by
  have hp : ts.Pairwise (· > ·) := List.chain'_iff_pairwise.mp hc
  have hmono : ∀ i j, i < j → j < ts.length → -ts.getD i 0 < -ts.getD j 0 := by
    intro i j hij hj
    have hi : i < ts.length := lt_trans hij hj
    rw [getD_eq_get ts i hi, getD_eq_get ts j hj]
    have := List.pairwise_iff_get.mp hp ⟨i, hi⟩ ⟨j, hj⟩ hij
    simpa using this
  have hneg : 0 < sNum (fun i => -ts.getD i 0) ts.length :=
    sNum_pos _ _ h2 hmono
  have hnum : sNum (fun i => ts.getD i 0) ts.length < 0 := by
    have := sNum_neg_fun (fun i => ts.getD i 0) ts.length
    linarith
  exact div_neg_of_neg_of_pos hnum (sDen_pos _ h2)

theorem listMean_replicate (n : ℕ) (h : n ≠ 0) (T : ℚ) :
    listMean (List.replicate n T) = T := by
  have hq : (n : ℚ) ≠ 0 := Nat.cast_ne_zero.mpr h
  simp only [listMean, List.sum_replicate, List.length_replicate, nsmul_eq_mul]
  field_simp

theorem listMean_singleton (x : ℚ) : listMean [x] = x := by
  simp [listMean]

theorem uniqueFirst_replicate (n : ℕ) (h : n ≠ 0) (c : ℕ) :
    uniqueFirst (List.replicate n c) = [c] := by
  cases n with
  | zero => omega
  | succ n =>
    rw [List.replicate_succ, uniqueFirst]
    have hf : (List.replicate n c).filter (fun y => y != c) = [] := by
      rw [List.filter_eq_nil_iff]
      intro a ha
      rw [List.eq_of_mem_replicate ha]
      simp
    rw [hf, uniqueFirst]

theorem map_stint_const (ts : List ℚ) :
    (ts.map mkLap).map (fun l => l.stint) = List.replicate ts.length 1 := by
  induction ts with
  | nil => rfl
  | cons t ts ih => simp [mkLap, List.replicate_succ, ih]

theorem map_lapTime_id (ts : List ℚ) :
    (ts.map mkLap).map (fun l => l.lapTime) = ts := by
  induction ts with
  | nil => rfl
  | cons t ts ih => simp [mkLap, ih]

theorem racePace_mkStint (ts : List ℚ) (h5 : 5 ≤ ts.length) :
    calculate_race_pace (some (mkStintSession ts)) "VER" 5
      = ⟨some (listMean ts), some (polyfitSlope ts), none, some 0⟩ := by
  have hne : ts ≠ [] := by
    intro h
    rw [h] at h5
    simp at h5
  have hmapne : ts.map mkLap ≠ [] := by
    cases ts with
    | nil => exact absurd rfl hne
    | cons t ts => simp
  have hfilter1 : (ts.map mkLap).filter (fun l => l.driver == "VER") = ts.map mkLap := by
    rw [List.filter_eq_self]
    intro a ha
    rcases List.mem_map.mp ha with ⟨t, _, rfl⟩
    rfl
  have hfilter2 : (ts.map mkLap).filter (fun l => l.quick && l.green) = ts.map mkLap := by
    rw [List.filter_eq_self]
    intro a ha
    rcases List.mem_map.mp ha with ⟨t, _, rfl⟩
    rfl
  have hfilter3 : (ts.map mkLap).filter (fun l => l.stint == 1) = ts.map mkLap := by
    rw [List.filter_eq_self]
    intro a ha
    rcases List.mem_map.mp ha with ⟨t, _, rfl⟩
    rfl
  have hstints : uniqueFirst ((ts.map mkLap).map (fun l => l.stint)) = [1] := by
    rw [map_stint_const]
    exact uniqueFirst_replicate _ (by intro h; rw [h] at h5; simp at h5) 1
  have hlen : (ts.map mkLap).length = ts.length := List.length_map _ _
  have hrun : ([(ts.map mkLap)].filter (fun g => decide (5 ≤ g.length)))
      = [ts.map mkLap] := by
    have hd : decide (5 ≤ ts.length) = true := decide_eq_true h5
    simp [List.filter, hd]
  have hslopes : ([(ts.map mkLap)].filter (fun g => decide (1 < g.length)))
      = [ts.map mkLap] := by
    have hd : decide (1 < ts.length) = true := decide_eq_true (by omega)
    simp [List.filter, hd]
  have htop : topSpeedOf ⟨none, false, none, ts.map mkLap⟩ (ts.map mkLap) = none := by
    simp only [topSpeedOf]
    cases pickFastestP (ts.map mkLap) <;> rfl
  have hbody : racePaceBody (mkStintSession ts) "VER" 5
      = .ok ⟨some (listMean ts), some (polyfitSlope ts), none, some 0⟩ := by
    simp only [racePaceBody, mkStintSession, rainProbE]
    rw [hfilter1, if_neg hmapne, hfilter2, if_neg hmapne, hstints, htop]
    simp only [List.map_cons, List.map_nil]
    rw [hfilter3, hrun, hslopes]
    simp only [List.map_cons, List.map_nil, map_lapTime_id]
    rw [if_neg (by simp : ¬([listMean ts] : List ℚ) = [])]
    rw [if_neg (by simp : ¬([polyfitSlope ts] : List ℚ) = [])]
    rw [listMean_singleton, listMean_singleton]
  simp only [calculate_race_pace, hbody]

/-- C7: for a session holding a single qualifying stint (at least
`min_laps = 5` laps, all quick and green-flagged), the computed race
pace is the mean of the stint's lap times and the computed degradation
is the least-squares slope of lap time against lap index; a stint of 6
identical lap times `T` yields `race_pace = T` and
`tire_degradation = 0.0`; strictly increasing lap times yield a
positive slope and strictly decreasing lap times a negative slope. -/
theorem calculate_race_pace_stint_spec (ts : List ℚ) (T : ℚ) :
    (5 ≤ ts.length →
      calculate_race_pace (some (mkStintSession ts)) "VER" 5
        = ⟨some (listMean ts), some (polyfitSlope ts), none, some 0⟩) ∧
    calculate_race_pace (some (mkStintSession (List.replicate 6 T))) "VER" 5
      = ⟨some T, some 0, none, some 0⟩ ∧
    (5 ≤ ts.length → ts.Chain' (· < ·) →
      0 < polyfitSlope ts ∧
        (calculate_race_pace (some (mkStintSession ts)) "VER" 5).tire_deg
          = some (polyfitSlope ts)) ∧
    (5 ≤ ts.length → ts.Chain' (· > ·) →
      polyfitSlope ts < 0 ∧
        (calculate_race_pace (some (mkStintSession ts)) "VER" 5).tire_deg
          = some (polyfitSlope ts)) := by
  refine ⟨racePace_mkStint ts, ?_, ?_, ?_⟩
  · rw [racePace_mkStint _ (by simp)]
    rw [listMean_replicate 6 (by norm_num) T, polyfitSlope_const]
  · intro h5 hc
    exact ⟨polyfitSlope_pos ts (by omega) hc, by rw [racePace_mkStint ts h5]⟩
  · intro h5 hc
    exact ⟨polyfitSlope_negative ts (by omega) hc, by rw [racePace_mkStint ts h5]⟩

/-- Witness for C7: the identical-times scenario at `T = 90` and the
sign clauses on concrete increasing and decreasing stints. -/
theorem calculate_race_pace_stint_spec_witness :
    calculate_race_pace (some (mkStintSession (List.replicate 6 (90 : ℚ)))) "VER" 5
      = ⟨some 90, some 0, none, some 0⟩ ∧
    0 < polyfitSlope [100, 101, 102, 103, 104, 105] ∧
    polyfitSlope [105, 104, 103, 102, 101, 100] < 0 :=
  ⟨(calculate_race_pace_stint_spec [] 90).2.1,
    ((calculate_race_pace_stint_spec [100, 101, 102, 103, 104, 105] 0).2.2.1
      (by decide) (by norm_num [List.chain'_cons])).1,
    ((calculate_race_pace_stint_spec [105, 104, 103, 102, 101, 100] 0).2.2.2
      (by decide) (by norm_num [List.chain'_cons])).1⟩

/-- C4 (amended): whenever the `try` body of `calculate_race_pace`
raises, the exception is caught and the function returns the fully
degraded tuple `(None, None, None, None)` — the rain-probability
component is also `None`, not 0.0 — and the exception never reaches
the caller. -/
theorem calculate_race_pace_except_spec (s : Session) (drv : String) (m : ℕ)
    (e : String) (h : racePaceBody s drv m = .error e) :
    calculate_race_pace (some s) drv m = ⟨none, none, none, none⟩ := by
  simp only [calculate_race_pace, h]

/-- Witness for C4 (amended): the body raises a `KeyError` on a
weather table without a `Rainfall` column, and the caught result is
the all-`None` tuple. -/
theorem calculate_race_pace_except_spec_witness :
    calculate_race_pace (some badSession) "VER" 5 = ⟨none, none, none, none⟩ :=
  calculate_race_pace_except_spec badSession "VER" 5 "KeyError: Rainfall" rfl

/-- Counterexample to C4 as stated: on a concrete raising input the
rain-probability component of the caught result is `None`, not the
claimed `rain_probability_or_0.0` (which would be `some 0` here). -/
theorem calculate_race_pace_except_counterexample :
    racePaceBody badSession "VER" 5 = .error "KeyError: Rainfall" ∧
    calculate_race_pace (some badSession) "VER" 5 = ⟨none, none, none, none⟩ ∧
    calculate_race_pace (some badSession) "VER" 5 ≠ ⟨none, none, none, some 0⟩ := by
  refine ⟨rfl, rfl, by decide⟩
